import Mathlib

/-!
Shallow embedding of `src/airbnb-scraper.js` (Airbnb-Scraper-Puppeteer).

The embedding models the pure/data-manipulating core of the scraper:
record construction (`SearchData`, `ReviewData`), the dedup-and-batch
pipeline (`DataPipeline` with `saveToCsv` / `isDuplicate` / `addData` /
`closePipeline`), pagination discovery (`findPaginationUrls`), the
fetch-with-retry loop (`scrapeSearchResults`), the per-row detail crawl
(`processListing`), and the timing structure of the windowed
`Promise.all` loops and of the top-level orchestrator.

External effects are modelled explicitly:
* the CSV sink of a pipeline is `Option (List A)` — `none` means the file
  does not exist yet (so the next write emits a header), `some rows` is
  the file's data rows;
* a page fetch+extract is an oracle `Nat → FetchOutcome A` giving the
  outcome of each attempt;
* timing of concurrently running promises is modelled by giving every
  task a settle time, with `Promise.all` settling at the last success
  when all tasks succeed and at the first rejection otherwise.
-/

/-- JS `s || d` where `s` is a string: the empty string is falsy. -/
def jsOrDefault (s d : String) : String := if s = "" then d else s

/-- JS `String.prototype.trim`: remove leading and trailing whitespace
(modelled on the character list of the string, so that it is structural
and fully executable). -/
def jsTrim (s : String) : String :=
  String.mk (((s.data.dropWhile Char.isWhitespace).reverse.dropWhile
    Char.isWhitespace).reverse)

/-- The `SearchData` record: `src/airbnb-scraper.js` lines 42–50. -/
structure SearchData where
  name : String
  description : String
  dates : String
  price : String
  url : String
deriving DecidableEq, Repr

/-- The `SearchData` constructor: each field is `field.trim() || "No <field>"`
(trim first, then substitute the placeholder when the trimmed value is empty). -/
def SearchData.make (name description dates price url : String) : SearchData :=
  { name := jsOrDefault (jsTrim name) "No name"
    description := jsOrDefault (jsTrim description) "No description"
    dates := jsOrDefault (jsTrim dates) "No dates"
    price := jsOrDefault (jsTrim price) "No price"
    url := jsOrDefault (jsTrim url) "No url" }

/-- The `ReviewData` record: `src/airbnb-scraper.js` lines 52–74.
`stars` is a number in the source (count of filled star elements), so
`checkStringFields` leaves it alone; modelled as `Nat`. -/
structure ReviewData where
  name : String
  stars : Nat
  review : String
deriving DecidableEq, Repr

/-- One field of `ReviewData.checkStringFields` (lines 61–73): a string field
that is exactly `""` becomes `No <field>`; otherwise it is trimmed.
Note the order: the emptiness test happens BEFORE trimming. -/
def checkStringField (field : String) (v : String) : String :=
  if v = "" then "No " ++ field else jsTrim v

/-- The `ReviewData` constructor followed by `checkStringFields`. -/
def ReviewData.make (name : String) (stars : Nat) (review : String) : ReviewData :=
  { name := checkStringField "name" name
    stars := stars
    review := checkStringField "review" review }

/-- The `DataPipeline` state: `src/airbnb-scraper.js` lines 76–114.
`namesSeen` is the JS `Set` of seen natural keys (modelled as a list,
queried by membership), `storageQueue` the in-memory batch,
`storageQueueLimit` the flush threshold, `sink` the CSV file
(`none` = file does not exist yet), `warnings` the names logged at
warning level by `isDuplicate`. -/
structure DataPipeline (A : Type) where
  namesSeen : List String
  storageQueue : List A
  storageQueueLimit : Nat
  sink : Option (List A)
  warnings : List String
deriving DecidableEq, Repr

/-- A freshly constructed pipeline (constructor, lines 77–82); the default
`storageQueueLimit` is 50. -/
def DataPipeline.make (A : Type) (limit : Nat) : DataPipeline A :=
  { namesSeen := [], storageQueue := [], storageQueueLimit := limit,
    sink := none, warnings := [] }

/-- Function `saveToCsv` (lines 84–91), success path: `splice` removes the whole
queue first; if it was empty, return before any write (no data, no
header); otherwise serialize and append to the file (creating it, header
included, when it does not exist). -/
def DataPipeline.saveToCsv {A : Type} (p : DataPipeline A) : DataPipeline A :=
  let dataToSave := p.storageQueue
  if dataToSave.length = 0 then { p with storageQueue := [] }
  else { p with storageQueue := [], sink := some (p.sink.getD [] ++ dataToSave) }

/-- Function `saveToCsv` with a fallible append: `appendOk = false` models
`parse`/`appendFileSync` throwing. The `splice` has already removed the
records from `storageQueue` when the throw happens, so the error state
(`Except.error`) has an empty queue, an unchanged sink and an unchanged
seen-set. -/
def DataPipeline.saveToCsvE {A : Type} (p : DataPipeline A) (appendOk : Bool) :
    Except (DataPipeline A) (DataPipeline A) :=
  let dataToSave := p.storageQueue
  let cleared : DataPipeline A := { p with storageQueue := [] }
  if dataToSave.length = 0 then .ok cleared
  else if appendOk then
    .ok { cleared with sink := some (p.sink.getD [] ++ dataToSave) }
  else .error cleared

/-- Function `isDuplicate` (lines 93–100): returns whether the name was already
seen (logging a warning for a duplicate) and the updated pipeline (a new
name is added to `namesSeen`). -/
def DataPipeline.isDuplicate {A : Type} (p : DataPipeline A) (name : String) :
    Bool × DataPipeline A :=
  if name ∈ p.namesSeen then (true, { p with warnings := p.warnings ++ [name] })
  else (false, { p with namesSeen := name :: p.namesSeen })

/-- Function `addData` (lines 102–109): drop a duplicate, otherwise push onto the
queue and flush when the queue length reaches the limit. `keyOf` extracts
the record's `name` (the natural key). -/
def DataPipeline.addData {A : Type} (keyOf : A → String) (p : DataPipeline A)
    (data : A) : DataPipeline A :=
  match p.isDuplicate (keyOf data) with
  | (true, p1) => p1
  | (false, p1) =>
    let p2 := { p1 with storageQueue := p1.storageQueue ++ [data] }
    if p2.storageQueueLimit ≤ p2.storageQueue.length then p2.saveToCsv else p2

/-- Function `closePipeline` (lines 111–113): flush only when the queue is non-empty. -/
def DataPipeline.closePipeline {A : Type} (p : DataPipeline A) : DataPipeline A :=
  if 0 < p.storageQueue.length then p.saveToCsv else p

/-- Fold `addData` over a list of records (the `for (const item of dataItems)`
loops at lines 156–158 and 188–204). -/
def DataPipeline.addAll {A : Type} (keyOf : A → String) (p : DataPipeline A)
    (rs : List A) : DataPipeline A :=
  rs.foldl (DataPipeline.addData keyOf) p

/-- All records a pipeline holds, flushed ones first, then the in-memory
batch: the list of records that will have been persisted once the
pipeline is closed. -/
def DataPipeline.stored {A : Type} (p : DataPipeline A) : List A :=
  p.sink.getD [] ++ p.storageQueue

/-- Keep the first record of each key, given an initial set of
already-seen keys: the reference "what dedup should store" function. -/
def keepFirstByKey {A : Type} (keyOf : A → String) :
    List A → List String → List A
  | [], _ => []
  | r :: rs, seen =>
    if keyOf r ∈ seen then keepFirstByKey keyOf rs seen
    else r :: keepFirstByKey keyOf rs (keyOf r :: seen)

/-- The keys of the records dropped as duplicates, in order. -/
def droppedKeys {A : Type} (keyOf : A → String) :
    List A → List String → List String
  | [], _ => []
  | r :: rs, seen =>
    if keyOf r ∈ seen then keyOf r :: droppedKeys keyOf rs seen
    else droppedKeys keyOf rs (keyOf r :: seen)

/-- One attempt of a page fetch+extract: either the extractor returns a
list of records, or the navigation/extraction throws. -/
inductive FetchOutcome (A : Type) where
  | ok (items : List A)
  | err
deriving DecidableEq, Repr

/-- Whether a fetch attempt fails. -/
def FetchOutcome.isErr {A : Type} : FetchOutcome A → Bool
  | .ok _ => false
  | .err => true

/-- The `while (tries <= retries && !success)` loop of `scrapeSearchResults`
(lines 137–171). `target t` is the outcome of attempt `t` (attempt indices
start at 0); on a successful attempt every extracted item is fed into the
pipeline via `addData` and the loop stops. Returns the final pipeline, the
number of attempts performed, and the success flag. The recursion is on an
explicit fuel counter; when the loop is still running (`tries ≤ retries`),
fuel exhaustion returns the same exit value as the loop's own exit, so any
`fuel ≥ retries + 1 - tries` computes the while loop exactly. -/
def scrapeLoop {A : Type} (keyOf : A → String) (target : Nat → FetchOutcome A)
    (p : DataPipeline A) (retries : Nat) : Nat → Nat → DataPipeline A × Nat × Bool
  | 0, tries => (p, tries, false)
  | fuel + 1, tries =>
    if tries ≤ retries then
      match target tries with
      | .ok items => (p.addAll keyOf items, tries + 1, true)
      | .err => scrapeLoop keyOf target p retries fuel (tries + 1)
    else (p, tries, false)

/-- Function `scrapeSearchResults` (lines 137–171): run the retry loop from
`tries = 0` (with enough fuel for all `retries + 1` iterations); when no
attempt succeeds, throw (`Except.error`, carrying the number of attempts
performed); on success return the updated pipeline and the attempt count. -/
def scrapeSearchResults {A : Type} (keyOf : A → String)
    (target : Nat → FetchOutcome A) (p : DataPipeline A) (retries : Nat) :
    Except Nat (DataPipeline A × Nat) :=
  match scrapeLoop keyOf target p retries (retries + 1) 0 with
  | (p1, att, true) => .ok (p1, att)
  | (_, att, false) => .error att

/-- The number of fetch+extract attempts a `scrapeSearchResults` call
performs. -/
def scrapeAttempts {A : Type} (keyOf : A → String)
    (target : Nat → FetchOutcome A) (p : DataPipeline A) (retries : Nat) : Nat :=
  (scrapeLoop keyOf target p retries (retries + 1) 0).2.1

/-- JS `Array.prototype.slice(0, e)`: a non-negative end index takes the
first `e` elements; a negative end index drops the last `-e` elements. -/
def jsSliceTo {A : Type} (l : List A) (e : Int) : List A :=
  if 0 ≤ e then l.take e.toNat else l.take (l.length - (-e).toNat)

/-- The keyword formatting of `findPaginationUrls` (line 119):
`keyword.replace(/, /g, "--").replace(/ /g, "-")`. -/
def formatSearchKeyword (keyword : String) : String :=
  (keyword.replace ", " "--").replace " " "-"

/-- The first search-results page URL for a keyword (line 120). -/
def searchUrl (keyword : String) : String :=
  "https://www.airbnb.com/s/" ++ formatSearchKeyword keyword ++ "/homes"

/-- Function `findPaginationUrls` (lines 116–135). `discovery` is the outcome of
fetching the first page and extracting the pagination anchors: `some ls`
is the extracted link list in presentation order, `none` means the
navigation or extraction threw. Returns the link list together with
whether an error was logged. The first page's URL is placed in the list
before the try block; on success the first `pages - 1` extracted links
are appended; on failure the error is logged and the list stays as it is. -/
def findPaginationUrls (keyword : String) (discovery : Option (List String))
    (pages : Int) : List String × Bool :=
  match discovery with
  | some paginationLinks =>
    (searchUrl keyword :: jsSliceTo paginationLinks (pages - 1), false)
  | none => ([searchUrl keyword], true)

/-- One attempt of `processListing`'s retry loop (lines 180–219) for a row:
* `ok revs` — navigation succeeds, the review cards extract to `revs`,
  every review is added to a freshly created review pipeline and the
  pipeline is closed;
* `failNav` — `page.goto` or `page.$$` throws, before the review pipeline
  for this attempt is even created;
* `failAfter revs` — the throw happens while extracting the review cards,
  after `revs` have already been added to this attempt's pipeline and
  before `closePipeline` is reached. -/
inductive ListingAttempt where
  | ok (revs : List ReviewData)
  | failNav
  | failAfter (revs : List ReviewData)
deriving DecidableEq, Repr

/-- Whether a listing attempt fails. -/
def ListingAttempt.isFail : ListingAttempt → Bool
  | .ok _ => false
  | .failNav => true
  | .failAfter _ => true

/-- The observable outcome of one attempt: the review pipeline this
attempt created (`none` when it failed before creating one), whether
that pipeline was closed, and whether the attempt succeeded. A fresh
pipeline (default limit 50) is created inside the try block at line 186
on every attempt; `closePipeline` (line 206) runs only on the success
path. -/
def runListingAttempt (o : ListingAttempt) :
    Option (DataPipeline ReviewData) × Bool × Bool :=
  match o with
  | .ok revs =>
    (some (((DataPipeline.make ReviewData 50).addAll ReviewData.name revs).closePipeline),
      true, true)
  | .failNav => (none, false, false)
  | .failAfter revs =>
    (some ((DataPipeline.make ReviewData 50).addAll ReviewData.name revs), false, false)

/-- The result of `processListing` for one row: whether it succeeded, how
many attempts ran, the per-attempt pipelines with their closed flags (in
attempt order), and whether the `Max Retries exceeded` error was logged. -/
structure ListingRun where
  success : Bool
  attemptsUsed : Nat
  attempts : List (Option (DataPipeline ReviewData) × Bool)
  maxRetriesLogged : Bool
deriving DecidableEq, Repr

/-- The `while (tries < retries && !success)` loop of `processListing`
(lines 180–219): on a failed attempt, `tries` is incremented and when
`tries >= retries` the max-retries error is logged and the loop breaks;
the function always returns normally (it never rethrows), so the row is
skipped on exhaustion. The recursion is on an explicit fuel counter; when
the loop is still running (`tries < retries`), fuel exhaustion returns
the same exit value as the loop's own exit, so any
`fuel ≥ retries - tries` computes the while loop exactly. -/
def processListingLoop (outcomes : Nat → ListingAttempt) (retries : Nat) :
    Nat → Nat → List (Option (DataPipeline ReviewData) × Bool) → ListingRun
  | 0, tries, acc =>
    { success := false, attemptsUsed := tries, attempts := acc,
      maxRetriesLogged := false }
  | fuel + 1, tries, acc =>
    if tries < retries then
      match runListingAttempt (outcomes tries) with
      | (pl, _, true) =>
        { success := true, attemptsUsed := tries + 1,
          attempts := acc ++ [(pl, true)], maxRetriesLogged := false }
      | (pl, _, false) =>
        if retries ≤ tries + 1 then
          { success := false, attemptsUsed := tries + 1,
            attempts := acc ++ [(pl, false)], maxRetriesLogged := true }
        else processListingLoop outcomes retries fuel (tries + 1) (acc ++ [(pl, false)])
    else
      { success := false, attemptsUsed := tries, attempts := acc,
        maxRetriesLogged := false }

/-- Function `processListing` (lines 173–222), default `retries = 3`: run the
retry loop from `tries = 0` with enough fuel for all iterations. -/
def processListing (outcomes : Nat → ListingAttempt) (retries : Nat) : ListingRun :=
  processListingLoop outcomes retries retries 0 []

/-- A concurrently started task, as seen by the window scheduler: the time
(relative to its start) at which its promise settles, and whether it
fulfills (`ok = true`) or rejects. -/
structure WinTask where
  finish : Nat
  ok : Bool
deriving DecidableEq, Repr

/-- The time, relative to the window's start, at which
`Promise.all(window)` settles: when every task fulfills, at the last
fulfillment; as soon as any task rejects, at the earliest rejection
(later-settling siblings keep running but the combined promise is already
settled). -/
def promiseAllSettle (w : List WinTask) : Nat :=
  let fails := (w.filter (fun t => !t.ok)).map WinTask.finish
  match fails with
  | [] => (w.map WinTask.finish).foldl max 0
  | f :: fs => fs.foldl min f

/-- The chunking performed by the window loops
(`for (let i = 0; i < len; i += C)` with an inner
`for (let j = 0; j < C && i + j < len; j++)`, lines 234–245 and 266–277):
split the list into consecutive windows of size `c`. Structural recursion
on a fuel counter; one element at least is consumed per step, so any
`fuel ≥ l.length` computes the loop exactly (`c = 0` never occurs in the
source — `c` is 2 or 5). -/
def chunksGo {A : Type} (c : Nat) : Nat → List A → List (List A)
  | _, [] => []
  | 0, l => [l]
  | fuel + 1, a :: l => ((a :: l).take c) :: chunksGo c fuel (l.drop (c - 1))

/-- Evaluating `chunks c l` gives the list of consecutive windows of size `c` of `l`. -/
def chunks {A : Type} (c : Nat) (l : List A) : List (List A) :=
  chunksGo c l.length l

/-- The absolute start time of window `n` of a windowed run: the loop
`await`s the window's `Promise.all` inside a `try`, so window `n + 1`
starts exactly when window `n`'s `Promise.all` settles, whether it
fulfilled or rejected (the `catch` only logs and the loop continues). -/
def windowStart (ws : List (List WinTask)) : Nat → Nat
  | 0 => 0
  | n + 1 => windowStart ws n + promiseAllSettle (ws.getD n [])

/-- The absolute time at which a task of window `n` settles: every task
of a window is started at the window's start time and settles `finish`
later. -/
def taskSettle (ws : List (List WinTask)) (n : Nat) (task : WinTask) : Nat :=
  windowStart ws n + task.finish

/-- The trace of the window loop: each executed window paired with its
start time. A rejected `Promise.all` is caught inside the loop body, so
every window executes. -/
def runWindows (t : Nat) : List (List WinTask) → List (Nat × List WinTask)
  | [] => []
  | w :: ws => (t, w) :: runWindows (t + promiseAllSettle w) ws

/-- The claim's sequencing property for a windowed run: every task of
window `n` has settled by the time window `n + 1` starts. -/
def windowsStrictlySequential (ws : List (List WinTask)) : Prop :=
  ∀ n, n + 1 < ws.length →
    ∀ task ∈ ws.getD n [], taskSettle ws n task ≤ windowStart ws (n + 1)

/-- A recorded batch file handed to `processResults`, characterised by the
time its row processing takes once the CSV stream's `end` event fires. -/
structure DetailFile where
  rowsWork : Nat
deriving DecidableEq, Repr

/-- When the promise returned by `processResults` (lines 224–253) resolves,
given that the call is made at time `t`: the function body only registers
the `data`/`end`/`error` handlers on the CSV read stream and returns, so
the promise the orchestrator awaits resolves at registration time; the
row-processing windows run later, inside the `end` callback. -/
def processResultsResolveAt (t : Nat) (_f : DetailFile) : Nat := t

/-- When the `end` callback of `processResults` has finished processing
every row of the file, given that the call was made at time `t`. -/
def processResultsRowsDoneAt (t : Nat) (f : DetailFile) : Nat := t + f.rowsWork

/-- The detail loop of the main IIFE (lines 288–294): for each recorded
file, `await processResults(file, MAX_RETRIES)` inside a try/catch. Each
entry is the file's (call time, rows-done time); the next call happens
when the previous call's promise resolves. -/
def detailLoopTimes (t : Nat) : List DetailFile → List (Nat × Nat)
  | [] => []
  | f :: fs =>
    (t, processResultsRowsDoneAt t f) ::
      detailLoopTimes (processResultsResolveAt t f) fs

/-- The claim's sequencing property for the detail loop: file `k + 1` is
not called before file `k` has finished processing all of its rows. -/
def detailFilesSequential (times : List (Nat × Nat)) : Prop :=
  ∀ k, ∀ hk : k + 1 < times.length,
    ∀ hk' : k < times.length,
      (times.get ⟨k, hk'⟩).2 ≤ (times.get ⟨k + 1, hk⟩).1

/-! ### Concrete inputs used in counterexamples and witnesses -/

/-- A sample search record. -/
def oceanView : SearchData := SearchData.make " Ocean View " "Nice view" "May 1-5" "$100" "http://x"

/-- A pipeline holding one unflushed record. -/
def oceanViewPipeline : DataPipeline SearchData :=
  (DataPipeline.make SearchData 50).addData SearchData.name oceanView

/-- The state `saveToCsv` leaves behind when the CSV append throws on
`oceanViewPipeline`. -/
def oceanViewFailedFlush : DataPipeline SearchData :=
  match oceanViewPipeline.saveToCsvE false with
  | .error q => q
  | .ok q => q

/-- A sample review. -/
def aliceReview : ReviewData := ReviewData.make "Alice" 5 "Great stay"

/-- The review pipeline of a `processListing` attempt that added
`aliceReview` and then threw before reaching `closePipeline`. -/
def alicePipeline : DataPipeline ReviewData :=
  (DataPipeline.make ReviewData 50).addAll ReviewData.name [aliceReview]

/-- A detail-crawl row for which every attempt navigates, extracts one
review, and then throws before closing the attempt's pipeline. -/
def aliceOutcomes : Nat → ListingAttempt := fun _ => .failAfter [aliceReview]

/-- A review pipeline whose seen-set already contains `Bob` (the state of
a pipeline after earlier adds). -/
def bobSeenPipeline : DataPipeline ReviewData :=
  { namesSeen := ["Bob"], storageQueue := [], storageQueueLimit := 50,
    sink := none, warnings := [] }

/-- Four search-page tasks: the first fails quickly (settling at time 1)
while its window sibling succeeds slowly (settling at time 5); the second
window's tasks settle quickly. -/
def c1Tasks : List WinTask :=
  [⟨1, false⟩, ⟨5, true⟩, ⟨1, true⟩, ⟨1, true⟩]

/-- Two windows of tasks that all succeed (used to exhibit the sequencing
that does hold on all-success windows). -/
def okWindows : List (List WinTask) := [[⟨1, true⟩, ⟨5, true⟩], [⟨1, true⟩]]

/-- Two recorded batch files whose row processing each takes one time
unit after the CSV stream ends. -/
def twoDetailFiles : List DetailFile := [⟨1⟩, ⟨1⟩]

/-! ### Pipeline lemmas -/

theorem DataPipeline.saveToCsv_stored {A : Type} (p : DataPipeline A) :
    p.saveToCsv.stored = p.stored := by
  unfold DataPipeline.saveToCsv DataPipeline.stored
  by_cases h : p.storageQueue.length = 0
  · rw [List.length_eq_zero] at h
    simp [h]
  · simp [h]

theorem DataPipeline.saveToCsv_namesSeen {A : Type} (p : DataPipeline A) :
    p.saveToCsv.namesSeen = p.namesSeen := by
  unfold DataPipeline.saveToCsv
  by_cases h : p.storageQueue.length = 0 <;> simp [h]

theorem DataPipeline.saveToCsv_warnings {A : Type} (p : DataPipeline A) :
    p.saveToCsv.warnings = p.warnings := by
  unfold DataPipeline.saveToCsv
  by_cases h : p.storageQueue.length = 0 <;> simp [h]

theorem DataPipeline.saveToCsv_limit {A : Type} (p : DataPipeline A) :
    p.saveToCsv.storageQueueLimit = p.storageQueueLimit := by
  unfold DataPipeline.saveToCsv
  by_cases h : p.storageQueue.length = 0 <;> simp [h]

/-- Applying `addData` to a record whose key was already seen: only the warning
log changes. -/
theorem DataPipeline.addData_dup {A : Type} (keyOf : A → String)
    (p : DataPipeline A) (r : A) (h : keyOf r ∈ p.namesSeen) :
    p.addData keyOf r = { p with warnings := p.warnings ++ [keyOf r] } := by
  unfold DataPipeline.addData DataPipeline.isDuplicate
  simp [h]

/-- Applying `addData` to a record with a fresh key: the record lands at the end
of `stored`, its key is added to the seen-set, and nothing else about
the observable state changes. -/
theorem DataPipeline.addData_new {A : Type} (keyOf : A → String)
    (p : DataPipeline A) (r : A) (h : keyOf r ∉ p.namesSeen) :
    (p.addData keyOf r).stored = p.stored ++ [r] ∧
    (p.addData keyOf r).namesSeen = keyOf r :: p.namesSeen ∧
    (p.addData keyOf r).warnings = p.warnings ∧
    (p.addData keyOf r).storageQueueLimit = p.storageQueueLimit := by
  unfold DataPipeline.addData DataPipeline.isDuplicate
  simp only [h, if_false]
  set p2 : DataPipeline A :=
    { p with namesSeen := keyOf r :: p.namesSeen,
             storageQueue := p.storageQueue ++ [r] } with hp2
  have hstored : p2.stored = p.stored ++ [r] := by
    simp [DataPipeline.stored, hp2]
  by_cases hl : p2.storageQueueLimit ≤ p2.storageQueue.length
  · simp only [hl, if_true]
    exact ⟨by rw [DataPipeline.saveToCsv_stored, hstored],
      by rw [DataPipeline.saveToCsv_namesSeen],
      by rw [DataPipeline.saveToCsv_warnings],
      by rw [DataPipeline.saveToCsv_limit]⟩
  · simp only [hl, if_false]
    refine ⟨hstored, ?_, ?_, ?_⟩ <;> trivial

/-- Applying `addData` to a fresh key that fills the queue up to the threshold:
the whole queue, new record included, is flushed to the sink and the
in-memory batch is emptied. -/
theorem DataPipeline.addData_flush {A : Type} (keyOf : A → String)
    (p : DataPipeline A) (r : A) (h : keyOf r ∉ p.namesSeen)
    (hlen : p.storageQueueLimit ≤ p.storageQueue.length + 1) :
    (p.addData keyOf r).storageQueue = [] ∧
    (p.addData keyOf r).sink = some (p.sink.getD [] ++ (p.storageQueue ++ [r])) := by
  unfold DataPipeline.addData DataPipeline.isDuplicate
  rw [if_neg h]
  have hc : p.storageQueueLimit ≤ (p.storageQueue ++ [r]).length := by
    simp only [List.length_append, List.length_singleton]; omega
  simp only [hc, if_true]
  unfold DataPipeline.saveToCsv
  have hne : ¬ ((p.storageQueue ++ [r]).length = 0) := by
    simp only [List.length_append, List.length_singleton]; omega
  simp only [hne, if_false]
  constructor <;> trivial

/-- The fold of `addData` over a record list, characterised: the stored
records gain exactly the first occurrence of each not-yet-seen key, the
seen-set gains exactly the kept keys, and the warning log gains exactly
the dropped keys. Holds for every flush threshold: flushing never
changes `stored`, the seen-set or the warnings. -/
theorem DataPipeline.addAll_spec {A : Type} (keyOf : A → String)
    (rs : List A) (p : DataPipeline A) :
    (p.addAll keyOf rs).stored = p.stored ++ keepFirstByKey keyOf rs p.namesSeen ∧
    (p.addAll keyOf rs).namesSeen
      = ((keepFirstByKey keyOf rs p.namesSeen).map keyOf).reverse ++ p.namesSeen ∧
    (p.addAll keyOf rs).warnings = p.warnings ++ droppedKeys keyOf rs p.namesSeen ∧
    (p.addAll keyOf rs).storageQueueLimit = p.storageQueueLimit := by
  induction rs generalizing p with
  | nil => simp [DataPipeline.addAll, keepFirstByKey, droppedKeys]
  | cons r rs ih =>
    by_cases h : keyOf r ∈ p.namesSeen
    · have hstep : p.addAll keyOf (r :: rs)
          = ({ p with warnings := p.warnings ++ [keyOf r] } : DataPipeline A).addAll keyOf rs := by
        simp [DataPipeline.addAll, DataPipeline.addData_dup keyOf p r h]
      rw [hstep]
      obtain ⟨h1, h2, h3, h4⟩ := ih ({ p with warnings := p.warnings ++ [keyOf r] })
      refine ⟨?_, ?_, ?_, ?_⟩
      · rw [h1]; simp [DataPipeline.stored, keepFirstByKey, h]
      · rw [h2]; simp [keepFirstByKey, h]
      · rw [h3]; simp [droppedKeys, h]
      · exact h4
    · have hstep : p.addAll keyOf (r :: rs)
          = (p.addData keyOf r).addAll keyOf rs := by
        simp [DataPipeline.addAll]
      obtain ⟨n1, n2, n3, n4⟩ := DataPipeline.addData_new keyOf p r h
      rw [hstep]
      obtain ⟨h1, h2, h3, h4⟩ := ih (p.addData keyOf r)
      refine ⟨?_, ?_, ?_, ?_⟩
      · rw [h1, n1, n2]; simp [keepFirstByKey, h]
      · rw [h2, n2]; simp [keepFirstByKey, h]
      · rw [h3, n3, n2]; simp [droppedKeys, h]
      · rw [h4, n4]

/-- The keys kept by `keepFirstByKey` are pairwise distinct and disjoint
from the initial seen-set. -/
theorem keepFirstByKey_nodup {A : Type} (keyOf : A → String)
    (rs : List A) (seen : List String) :
    ((keepFirstByKey keyOf rs seen).map keyOf).Nodup ∧
    ∀ k ∈ (keepFirstByKey keyOf rs seen).map keyOf, k ∉ seen := by
  induction rs generalizing seen with
  | nil => simp [keepFirstByKey]
  | cons r rs ih =>
    by_cases h : keyOf r ∈ seen
    · simpa [keepFirstByKey, h] using ih seen
    · obtain ⟨ihn, ihd⟩ := ih (keyOf r :: seen)
      refine ⟨?_, ?_⟩
      · simp only [keepFirstByKey, h, if_false, List.map_cons, List.nodup_cons]
        exact ⟨fun hk => (ihd _ hk) (List.mem_cons_self _ _), ihn⟩
      · intro k hk
        simp only [keepFirstByKey, h, if_false, List.map_cons, List.mem_cons] at hk
        rcases hk with rfl | hk
        · exact h
        · exact fun hks => (ihd _ hk) (List.mem_cons_of_mem _ hks)

/-- When the keys of `rs` are pairwise distinct and none was seen yet,
dedup keeps everything. -/
theorem keepFirstByKey_of_nodup {A : Type} (keyOf : A → String)
    (rs : List A) (seen : List String)
    (h1 : (rs.map keyOf).Nodup) (h2 : ∀ r ∈ rs, keyOf r ∉ seen) :
    keepFirstByKey keyOf rs seen = rs := by
  induction rs generalizing seen with
  | nil => simp [keepFirstByKey]
  | cons r rs ih =>
    simp only [List.map_cons, List.nodup_cons] at h1
    have hr : keyOf r ∉ seen := h2 r (List.mem_cons_self _ _)
    rw [keepFirstByKey, if_neg hr, ih (keyOf r :: seen) h1.2]
    intro r' hr'
    simp only [List.mem_cons]
    rintro (hk | hk)
    · exact h1.1 (hk ▸ List.mem_map_of_mem keyOf hr')
    · exact h2 r' (List.mem_cons_of_mem _ hr') hk

/-- Adding fresh, pairwise-distinct records that do not fill the queue up
to the threshold: they are appended to the in-memory batch and nothing is
written to the sink. -/
theorem DataPipeline.addAll_no_flush {A : Type} (keyOf : A → String)
    (rs : List A) (p : DataPipeline A)
    (hnodup : (rs.map keyOf).Nodup)
    (hfresh : ∀ r ∈ rs, keyOf r ∉ p.namesSeen)
    (hlen : p.storageQueue.length + rs.length < p.storageQueueLimit) :
    (p.addAll keyOf rs).storageQueue = p.storageQueue ++ rs ∧
    (p.addAll keyOf rs).sink = p.sink := by
  induction rs generalizing p with
  | nil => simp [DataPipeline.addAll]
  | cons r rs ih =>
    simp only [List.map_cons, List.nodup_cons] at hnodup
    have hr : keyOf r ∉ p.namesSeen := hfresh r (List.mem_cons_self _ _)
    have hstep : p.addAll keyOf (r :: rs) = (p.addData keyOf r).addAll keyOf rs := by
      simp [DataPipeline.addAll]
    have hlt : ¬ p.storageQueueLimit ≤ p.storageQueue.length + 1 := by
      simp only [List.length_cons] at hlen; omega
    have haddr : p.addData keyOf r
        = { p with namesSeen := keyOf r :: p.namesSeen,
                   storageQueue := p.storageQueue ++ [r] } := by
      unfold DataPipeline.addData DataPipeline.isDuplicate
      simp only [hr, if_false]
      simp only [List.length_append, List.length_singleton, hlt, if_false]
    rw [hstep, haddr]
    have := ih ({ p with namesSeen := keyOf r :: p.namesSeen,
                         storageQueue := p.storageQueue ++ [r] } : DataPipeline A)
      hnodup.2 ?_ ?_
    · simpa [List.append_assoc] using this
    · intro r' hr'
      simp only [List.mem_cons]
      rintro (hk | hk)
      · exact hnodup.1 (hk ▸ List.mem_map_of_mem keyOf hr')
      · exact hfresh r' (List.mem_cons_of_mem _ hr') hk
    · simp only [List.length_append, List.length_singleton]
      simp only [List.length_cons] at hlen
      omega

/-! ### C6: dedup across a pipeline's lifetime -/

/-- Claim C6: For every sequence of `add` calls on one pipeline, each natural
key is stored at most once across the pipeline's lifetime: the stored
records are exactly the first record of each key (later records with a
seen key are logged at warning level and discarded), the stored keys are
pairwise distinct, and the seen-set only grows (never reset), for every
flush threshold — so duplicates are caught across flushes. -/
theorem C6_dedup_across_lifetime {A : Type} (keyOf : A → String) (limit : Nat)
    (rs : List A) (q : DataPipeline A) :
    ((DataPipeline.make A limit).addAll keyOf rs).stored = keepFirstByKey keyOf rs [] ∧
    ((((DataPipeline.make A limit).addAll keyOf rs).stored).map keyOf).Nodup ∧
    ((DataPipeline.make A limit).addAll keyOf rs).warnings = droppedKeys keyOf rs [] ∧
    (∀ s ∈ q.namesSeen, s ∈ (q.addAll keyOf rs).namesSeen) := by
  obtain ⟨h1, _, h3, _⟩ := DataPipeline.addAll_spec keyOf rs (DataPipeline.make A limit)
  have hmk : (DataPipeline.make A limit).stored = [] := rfl
  have hseen : (DataPipeline.make A limit).namesSeen = [] := rfl
  have hw : (DataPipeline.make A limit).warnings = [] := rfl
  refine ⟨?_, ?_, ?_, ?_⟩
  · rw [h1, hmk, hseen]; simp
  · rw [h1, hmk, hseen]
    simpa using (keepFirstByKey_nodup keyOf rs []).1
  · rw [h3, hseen, hw]; simp
  · intro s hs
    obtain ⟨_, h2', _, _⟩ := DataPipeline.addAll_spec keyOf rs q
    rw [h2']
    exact List.mem_append_right _ hs

/-- Witness for claim C6: A concrete run: two records named `Alice` yield a
single stored record, a single warning, and a seen-set that retains a
pre-existing name. -/
theorem C6_dedup_across_lifetime_witness :
    (((DataPipeline.make ReviewData 50).addAll ReviewData.name
        [aliceReview, ReviewData.make "Alice" 1 "Bad stay"]).stored = [aliceReview]) ∧
    "Bob" ∈ (bobSeenPipeline.addAll ReviewData.name [aliceReview]).namesSeen := by
  constructor
  · have h := (C6_dedup_across_lifetime ReviewData.name 50
      [aliceReview, ReviewData.make "Alice" 1 "Bad stay"]
      (DataPipeline.make ReviewData 50)).1
    rw [h]; decide
  · exact (C6_dedup_across_lifetime ReviewData.name 50 [aliceReview]
      bobSeenPipeline).2.2.2 "Bob" (by decide)

/-! ### C7: flush threshold behaviour -/

/-- Claim C7: For a pipeline with flush threshold `T ≥ 1`: after adding `T`
records with pairwise-distinct keys the in-memory batch is empty and
exactly those `T` records (in order) are in the sink; after adding only
`T - 1` such records the batch holds all of them and nothing has been
written to the sink (the file does not even exist). -/
theorem C7_threshold_flush {A : Type} (keyOf : A → String) (T : Nat)
    (rs rs' : List A) (hT : 1 ≤ T)
    (hlen : rs.length = T) (hnodup : (rs.map keyOf).Nodup)
    (hlen' : rs'.length = T - 1) (hnodup' : (rs'.map keyOf).Nodup) :
    ((DataPipeline.make A T).addAll keyOf rs).storageQueue = [] ∧
    ((DataPipeline.make A T).addAll keyOf rs).sink = some rs ∧
    ((DataPipeline.make A T).addAll keyOf rs').storageQueue = rs' ∧
    ((DataPipeline.make A T).addAll keyOf rs').sink = none := by
  have hpart2 := DataPipeline.addAll_no_flush keyOf rs' (DataPipeline.make A T) hnodup'
    (by intro r hr; simp [DataPipeline.make])
    (by simp [DataPipeline.make]; omega)
  have h2q : ((DataPipeline.make A T).addAll keyOf rs').storageQueue = rs' := by
    have := hpart2.1; simpa [DataPipeline.make] using this
  have h2s : ((DataPipeline.make A T).addAll keyOf rs').sink = none := by
    have := hpart2.2; simpa [DataPipeline.make] using this
  rcases List.eq_nil_or_concat rs with hnil | ⟨rs0, b, hcat⟩
  · exfalso; rw [hnil] at hlen; simp at hlen; omega
  · subst hcat
    have hlen0 : rs0.length = T - 1 := by
      simp only [List.concat_eq_append, List.length_append, List.length_singleton] at hlen
      omega
    have hnd : (rs0.map keyOf).Nodup ∧ keyOf b ∉ rs0.map keyOf := by
      simp only [List.concat_eq_append, List.map_append, List.map_singleton,
        List.nodup_append] at hnodup
      exact ⟨hnodup.1, fun hmem => hnodup.2.2 hmem (List.mem_singleton_self _)⟩
    have hpart0 := DataPipeline.addAll_no_flush keyOf rs0 (DataPipeline.make A T) hnd.1
      (by intro r hr; simp [DataPipeline.make])
      (by simp [DataPipeline.make]; omega)
    have h0q : ((DataPipeline.make A T).addAll keyOf rs0).storageQueue = rs0 := by
      have := hpart0.1; simpa [DataPipeline.make] using this
    have h0s : ((DataPipeline.make A T).addAll keyOf rs0).sink = none := by
      have := hpart0.2; simpa [DataPipeline.make] using this
    obtain ⟨_, hsp, _, hlim⟩ := DataPipeline.addAll_spec keyOf rs0 (DataPipeline.make A T)
    have hkeep : keepFirstByKey keyOf rs0 [] = rs0 :=
      keepFirstByKey_of_nodup keyOf rs0 [] hnd.1 (by simp)
    have hseen0 : ((DataPipeline.make A T).addAll keyOf rs0).namesSeen
        = (rs0.map keyOf).reverse := by
      rw [hsp]
      simp [DataPipeline.make, hkeep]
    have hlim0 : ((DataPipeline.make A T).addAll keyOf rs0).storageQueueLimit = T := by
      rw [hlim]; rfl
    have hbnot : keyOf b ∉ ((DataPipeline.make A T).addAll keyOf rs0).namesSeen := by
      rw [hseen0]
      simpa using hnd.2
    have hfold : (DataPipeline.make A T).addAll keyOf (rs0.concat b)
        = ((DataPipeline.make A T).addAll keyOf rs0).addData keyOf b := by
      simp [DataPipeline.addAll, List.concat_eq_append, List.foldl_append]
    set p1 := (DataPipeline.make A T).addAll keyOf rs0 with hp1
    have hflush := DataPipeline.addData_flush keyOf p1 b hbnot
      (by rw [hlim0, h0q]; omega)
    refine ⟨?_, ?_, h2q, h2s⟩
    · rw [hfold]; exact hflush.1
    · rw [hfold, hflush.2, h0s, h0q]
      simp only [Option.getD_none, List.nil_append, List.concat_eq_append]

/-- Witness for claim C7: Threshold 2: two distinct records flush exactly once;
a single record stays in the batch with no file created. -/
theorem C7_threshold_flush_witness :
    (((DataPipeline.make ReviewData 2).addAll ReviewData.name
        [aliceReview, ReviewData.make "Bob" 4 "Fine"]).storageQueue = []) ∧
    (((DataPipeline.make ReviewData 2).addAll ReviewData.name
        [aliceReview, ReviewData.make "Bob" 4 "Fine"]).sink
      = some [aliceReview, ReviewData.make "Bob" 4 "Fine"]) ∧
    (((DataPipeline.make ReviewData 2).addAll ReviewData.name
        [aliceReview]).storageQueue = [aliceReview]) ∧
    (((DataPipeline.make ReviewData 2).addAll ReviewData.name
        [aliceReview]).sink = none) :=
  C7_threshold_flush ReviewData.name 2 [aliceReview, ReviewData.make "Bob" 4 "Fine"]
    [aliceReview] (by omega) (by decide) (by decide) (by decide) (by decide)

/-! ### C8: close flushes the remainder and is idempotent -/

/-- Claim C8: function `closePipeline` on a non-empty batch appends all remaining
records to the sink and empties the batch; a second `closePipeline` (or
any `closePipeline` on an empty batch) changes nothing — no rows are
written twice, and flushing an empty batch writes neither data nor a
header (the sink, existing or not, is untouched). -/
theorem C8_close_flushes_and_idempotent {A : Type} (p : DataPipeline A) :
    (p.storageQueue ≠ [] →
      p.closePipeline.storageQueue = [] ∧
      p.closePipeline.sink = some (p.sink.getD [] ++ p.storageQueue)) ∧
    p.closePipeline.closePipeline = p.closePipeline ∧
    (p.storageQueue = [] → p.closePipeline = p) ∧
    (p.storageQueue = [] → p.saveToCsv.sink = p.sink) := by
  by_cases h : p.storageQueue = []
  · have hc : p.closePipeline = p := by
      unfold DataPipeline.closePipeline
      simp [h]
    refine ⟨fun hne => absurd h hne, ?_, fun _ => hc, fun _ => ?_⟩
    · rw [hc, hc]
    · unfold DataPipeline.saveToCsv
      simp [h]
  · have hlen : p.storageQueue.length ≠ 0 := by
      simpa [List.length_eq_zero] using h
    have hc : p.closePipeline = p.saveToCsv := by
      unfold DataPipeline.closePipeline
      simp [Nat.pos_of_ne_zero hlen]
    have hs : p.saveToCsv.storageQueue = [] ∧
        p.saveToCsv.sink = some (p.sink.getD [] ++ p.storageQueue) := by
      unfold DataPipeline.saveToCsv
      simp only [hlen, if_false]
      constructor <;> trivial
    refine ⟨fun _ => ⟨hc ▸ hs.1, hc ▸ hs.2⟩, ?_, fun he => absurd he h, fun he => absurd he h⟩
    rw [hc]
    unfold DataPipeline.closePipeline
    simp [hs.1]

/-- Witness for claim C8: Closing a pipeline holding one record writes that
record; closing again changes nothing; closing a fresh pipeline writes
nothing. -/
theorem C8_close_witness :
    oceanViewPipeline.closePipeline.storageQueue = [] ∧
    oceanViewPipeline.closePipeline.sink = some [oceanView] ∧
    oceanViewPipeline.closePipeline.closePipeline = oceanViewPipeline.closePipeline ∧
    (DataPipeline.make SearchData 50).closePipeline = DataPipeline.make SearchData 50 := by
  have h := C8_close_flushes_and_idempotent oceanViewPipeline
  have h1 := h.1 (by decide)
  exact ⟨h1.1, by rw [h1.2]; decide, h.2.1,
    (C8_close_flushes_and_idempotent (DataPipeline.make SearchData 50)).2.2.1 rfl⟩

/-! ### C3: flush atomicity on append failure -/

/-- Counterexample for claim C3: A pipeline holding one record: when the CSV
append throws, the record is gone from the in-memory batch and was never
appended to the sink — it is lost, contradicting the claim that records
are removed from the batch exactly when appended and are never lost when
the append fails. -/
theorem C3_counterexample :
    oceanViewPipeline.storageQueue = [oceanView] ∧
    oceanViewPipeline.saveToCsvE false = .error oceanViewFailedFlush ∧
    oceanViewFailedFlush.storageQueue = [] ∧
    oceanViewFailedFlush.sink = none := by
  refine ⟨by decide, rfl, by decide, by decide⟩

/-- Amended claim C3: The seen-set survives any flush, and on a successful
append the records are moved to the sink exactly as they leave the batch
(nothing lost or duplicated); but when the append throws, the `splice`
has already emptied the batch and the sink is unchanged, so the
batch's records are lost (they are, at least, not duplicated): after a
failed flush the pipeline holds exactly the records that were already in
the sink. -/
theorem C3_flush_atomicity {A : Type} (p q q' : DataPipeline A) :
    (p.saveToCsvE true = .ok q' →
      q'.stored = p.stored ∧ q'.namesSeen = p.namesSeen ∧ q'.storageQueue = []) ∧
    (p.saveToCsvE false = .error q →
      q.namesSeen = p.namesSeen ∧ q.sink = p.sink ∧ q.warnings = p.warnings ∧
      q.storageQueue = [] ∧ q.stored = p.sink.getD []) := by
  constructor
  · intro hok
    unfold DataPipeline.saveToCsvE at hok
    by_cases h : p.storageQueue.length = 0
    · rw [if_pos h] at hok
      have hq : p.storageQueue = [] := List.length_eq_zero.mp h
      obtain rfl := (Except.ok.inj hok).symm
      refine ⟨?_, rfl, rfl⟩
      simp [DataPipeline.stored, hq]
    · rw [if_neg h, if_pos rfl] at hok
      obtain rfl := (Except.ok.inj hok).symm
      refine ⟨?_, rfl, rfl⟩
      simp [DataPipeline.stored]
  · intro herr
    unfold DataPipeline.saveToCsvE at herr
    by_cases h : p.storageQueue.length = 0
    · rw [if_pos h] at herr
      cases herr
    · rw [if_neg h, if_neg Bool.false_ne_true] at herr
      obtain rfl := (Except.error.inj herr).symm
      refine ⟨rfl, rfl, rfl, rfl, ?_⟩
      simp [DataPipeline.stored]

/-- Witness for claim C3: The amended behaviour at a concrete pipeline: a
successful flush moves the record to the sink; a failed flush keeps the
seen-set and sink but the batch record is gone. -/
theorem C3_flush_atomicity_witness :
    ((match oceanViewPipeline.saveToCsvE true with
      | .ok q => q.stored = oceanViewPipeline.stored
      | .error _ => False) : Prop) ∧
    oceanViewFailedFlush.namesSeen = oceanViewPipeline.namesSeen ∧
    oceanViewFailedFlush.stored = [] := by
  constructor
  · have h := (C3_flush_atomicity oceanViewPipeline oceanViewFailedFlush
      (match oceanViewPipeline.saveToCsvE true with
        | .ok q => q
        | .error _ => oceanViewPipeline)).1 rfl
    exact h.1
  · have h := (C3_flush_atomicity oceanViewPipeline oceanViewFailedFlush
      oceanViewFailedFlush).2 rfl
    exact ⟨h.1, by rw [h.2.2.2.2]; decide⟩

/-! ### C4: ReviewData vs SearchData string normalization -/

/-- Counterexample for claim C4: A whitespace-only name: `ReviewData` stores it
as the empty string (its emptiness test runs before trimming), while
`SearchData` stores the placeholder — so ReviewRecord does not normalize
blank fields like SearchRecord, and a stored string field can be empty. -/
theorem C4_counterexample :
    (ReviewData.make "   " 0 "ok").name = "" ∧
    (SearchData.make "   " "d" "dt" "p" "u").name = "No name" := by
  constructor <;> decide

/-- Amended claim C4: the `ReviewData` record replaces a string field by its
placeholder only when the field is exactly the empty string, and trims it
otherwise; `stars` is numeric and untouched. It therefore agrees with
`SearchData`'s normalization (trim first, placeholder when the trimmed
value is empty) whenever the input is empty or trims to a non-empty
string — but a whitespace-only (blank, non-empty) field is stored as the
empty string, not the placeholder. -/
theorem C4_review_normalization (name review : String) (stars : Nat) :
    (ReviewData.make name stars review).name
      = (if name = "" then "No name" else jsTrim name) ∧
    (ReviewData.make name stars review).review
      = (if review = "" then "No review" else jsTrim review) ∧
    (ReviewData.make name stars review).stars = stars ∧
    ((name = "" ∨ jsTrim name ≠ "") →
      (ReviewData.make name stars review).name = jsOrDefault (jsTrim name) "No name") ∧
    ((review = "" ∨ jsTrim review ≠ "") →
      (ReviewData.make name stars review).review
        = jsOrDefault (jsTrim review) "No review") := by
  have hname : (ReviewData.make name stars review).name
      = (if name = "" then "No name" else jsTrim name) := by
    show checkStringField "name" name = _
    unfold checkStringField
    by_cases h : name = ""
    · rw [if_pos h, if_pos h]
      decide
    · rw [if_neg h, if_neg h]
  have hreview : (ReviewData.make name stars review).review
      = (if review = "" then "No review" else jsTrim review) := by
    show checkStringField "review" review = _
    unfold checkStringField
    by_cases h : review = ""
    · rw [if_pos h, if_pos h]
      decide
    · rw [if_neg h, if_neg h]
  refine ⟨hname, hreview, rfl, ?_, ?_⟩
  · rintro (h | h)
    · rw [hname, if_pos h, h]
      rfl
    · by_cases h0 : name = ""
      · rw [hname, if_pos h0, h0]
        rfl
      · rw [hname, if_neg h0]
        unfold jsOrDefault
        rw [if_neg h]
  · rintro (h | h)
    · rw [hreview, if_pos h, h]
      rfl
    · by_cases h0 : review = ""
      · rw [hreview, if_pos h0, h0]
        rfl
      · rw [hreview, if_neg h0]
        unfold jsOrDefault
        rw [if_neg h]

/-- Witness for claim C4: The amended normalization at concrete inputs: an
untrimmed non-blank name is trimmed (agreeing with SearchData), an empty
review gets its placeholder. -/
theorem C4_review_normalization_witness :
    (ReviewData.make " Ocean View " 4 "").name = "Ocean View" ∧
    (ReviewData.make " Ocean View " 4 "").review = "No review" := by
  have h := C4_review_normalization " Ocean View " "" 4
  constructor
  · rw [h.2.2.2.1 (Or.inr (by decide))]
    decide
  · rw [h.2.2.2.2 (Or.inl rfl)]
    decide

/-! ### C5: fetch-with-retry -/

/-- With every attempt from `tries` through `retries` failing, the retry
loop runs through its remaining iterations and exits with attempt
counter `retries + 1`, no success, and an unchanged pipeline. -/
theorem scrapeLoop_allFail {A : Type} (keyOf : A → String)
    (target : Nat → FetchOutcome A) (p : DataPipeline A) (retries : Nat) :
    ∀ fuel tries, retries + 1 ≤ fuel + tries → tries ≤ retries + 1 →
      (∀ t, tries ≤ t → t ≤ retries → target t = .err) →
      scrapeLoop keyOf target p retries fuel tries = (p, retries + 1, false) := by
  intro fuel
  induction fuel with
  | zero =>
    intro tries h1 h2 h3
    have he : tries = retries + 1 := by omega
    subst he
    rfl
  | succ fuel ih =>
    intro tries h1 h2 h3
    by_cases h : tries ≤ retries
    · simp only [scrapeLoop]
      rw [if_pos h, h3 tries le_rfl h]
      exact ih (tries + 1) (by omega) (by omega) (fun t ht1 ht2 => h3 t (by omega) ht2)
    · have he : tries = retries + 1 := by omega
      subst he
      simp [scrapeLoop, h]

/-- When attempt `t` is the first success, the retry loop stops there
with `t + 1` attempts performed and the extracted items folded into the
pipeline. -/
theorem scrapeLoop_firstSuccess {A : Type} (keyOf : A → String)
    (target : Nat → FetchOutcome A) (p : DataPipeline A) (retries : Nat)
    (t : Nat) (items : List A) (ht : t ≤ retries)
    (hok : target t = .ok items) (hfail : ∀ u, u < t → target u = .err) :
    ∀ fuel tries, t + 1 ≤ fuel + tries → tries ≤ t →
      scrapeLoop keyOf target p retries fuel tries
        = (p.addAll keyOf items, t + 1, true) := by
  intro fuel
  induction fuel with
  | zero =>
    intro tries h1 h2
    exact absurd h1 (by omega)
  | succ fuel ih =>
    intro tries h1 h2
    have htr : tries ≤ retries := le_trans h2 ht
    simp only [scrapeLoop]
    rw [if_pos htr]
    by_cases he : tries = t
    · subst he
      rw [hok]
    · have hlt : tries < t := lt_of_le_of_ne h2 he
      rw [hfail tries hlt]
      exact ih (tries + 1) (by omega) (by omega)

/-- The attempt counter the retry loop reports never exceeds
`retries + 1`. -/
theorem scrapeLoop_attempts_le {A : Type} (keyOf : A → String)
    (target : Nat → FetchOutcome A) (p : DataPipeline A) (retries : Nat) :
    ∀ fuel tries, tries ≤ retries + 1 →
      (scrapeLoop keyOf target p retries fuel tries).2.1 ≤ retries + 1 := by
  intro fuel
  induction fuel with
  | zero =>
    intro tries h
    simpa [scrapeLoop] using h
  | succ fuel ih =>
    intro tries h
    simp only [scrapeLoop]
    by_cases hc : tries ≤ retries
    · rw [if_pos hc]
      cases hy : target tries with
      | ok items => simp only; omega
      | err => exact ih (tries + 1) (by omega)
    · rw [if_neg hc]
      simpa using h

/-- Claim C5: For every target and retry bound `R`, the fetch-with-retry of
`scrapeSearchResults` performs at most `R + 1` attempts; if attempt `t`
(`t ≤ R`) is the first to succeed, it stops there, forwards the extracted
records into the pipeline, and reports `t + 1` attempts; if all `R + 1`
attempts fail it raises a terminal failure after exactly `R + 1` attempts
(so with `retries = 2`, exactly 3 attempts before the failure). -/
theorem C5_fetch_with_retry {A : Type} (keyOf : A → String)
    (target : Nat → FetchOutcome A) (p : DataPipeline A) (R : Nat) :
    scrapeAttempts keyOf target p R ≤ R + 1 ∧
    (∀ t items, t ≤ R → (∀ u, u < t → target u = .err) → target t = .ok items →
      scrapeSearchResults keyOf target p R = .ok (p.addAll keyOf items, t + 1)) ∧
    ((∀ t, t ≤ R → target t = .err) →
      scrapeSearchResults keyOf target p R = .error (R + 1)) := by
  refine ⟨?_, ?_, ?_⟩
  · exact scrapeLoop_attempts_le keyOf target p R (R + 1) 0 (by omega)
  · intro t items ht hfail hok
    unfold scrapeSearchResults
    rw [scrapeLoop_firstSuccess keyOf target p R t items ht hok hfail (R + 1) 0
      (by omega) (by omega)]
  · intro hfail
    unfold scrapeSearchResults
    rw [scrapeLoop_allFail keyOf target p R (R + 1) 0 (by omega) (by omega)
      (fun t _ h2 => hfail t h2)]

/-- Witness for claim C5: An always-failing target with `retries = 2` throws
after exactly 3 attempts; an immediately succeeding target returns after
1 attempt with its records in the pipeline. -/
theorem C5_fetch_with_retry_witness :
    scrapeSearchResults SearchData.name (fun _ => FetchOutcome.err)
        (DataPipeline.make SearchData 50) 2 = .error 3 ∧
    scrapeSearchResults SearchData.name (fun _ => FetchOutcome.ok [oceanView])
        (DataPipeline.make SearchData 50) 2
      = .ok ((DataPipeline.make SearchData 50).addAll SearchData.name [oceanView], 1) := by
  constructor
  · exact (C5_fetch_with_retry SearchData.name (fun _ => FetchOutcome.err)
      (DataPipeline.make SearchData 50) 2).2.2 (fun t _ => rfl)
  · exact (C5_fetch_with_retry SearchData.name (fun _ => FetchOutcome.ok [oceanView])
      (DataPipeline.make SearchData 50) 2).2.1 0 [oceanView] (by omega)
      (fun u hu => absurd hu (Nat.not_lt_zero u)) rfl

/-! ### C9: pagination discovery -/

/-- Claim C9: For every search term, page discovery returns a URL list
whose first element is the term's first search-results page URL, followed
(on successful discovery) by the first `pages - 1` extracted pagination
links in their presentation order, so the list never exceeds `pages`
elements (default 4); on discovery failure it logs the error and returns
just the first page's URL instead of aborting the term. -/
theorem C9_find_pagination (keyword : String) (discovery : Option (List String))
    (pages : Int) (hp : 1 ≤ pages) :
    (findPaginationUrls keyword discovery pages).1.head? = some (searchUrl keyword) ∧
    ((findPaginationUrls keyword discovery pages).1.length : Int) ≤ pages ∧
    (∀ ls, discovery = some ls →
      findPaginationUrls keyword discovery pages
        = (searchUrl keyword :: ls.take (pages - 1).toNat, false)) ∧
    (discovery = none →
      findPaginationUrls keyword discovery pages = ([searchUrl keyword], true)) := by
  cases discovery with
  | none =>
    refine ⟨rfl, ?_, ?_, fun _ => rfl⟩
    · show ((([searchUrl keyword] : List String).length : Int)) ≤ pages
      simp only [List.length_singleton, Nat.cast_one]
      omega
    · intro ls hls
      cases hls
  | some ls =>
    have hslice : jsSliceTo ls (pages - 1) = ls.take (pages - 1).toNat := by
      unfold jsSliceTo
      rw [if_pos (by omega)]
    refine ⟨rfl, ?_, ?_, ?_⟩
    · show ((searchUrl keyword :: jsSliceTo ls (pages - 1)).length : Int) ≤ pages
      rw [hslice]
      simp only [List.length_cons, List.length_take]
      have h1 : min (pages - 1).toNat ls.length ≤ (pages - 1).toNat := min_le_left _ _
      have h2 : ((pages - 1).toNat : Int) = pages - 1 := Int.toNat_of_nonneg (by omega)
      omega
    · intro ls' hls'
      obtain rfl := Option.some.inj hls'
      show (searchUrl keyword :: jsSliceTo ls (pages - 1), false) = _
      rw [hslice]
    · intro hnone
      cases hnone

/-- Witness for claim C9: With the default page cap 4: successful discovery of
five links keeps the first three after the first page's URL; failed
discovery yields just the first page's URL. -/
theorem C9_find_pagination_witness :
    findPaginationUrls "Myrtle Beach" (some ["a", "b", "c", "d", "e"]) 4
      = (searchUrl "Myrtle Beach" :: ["a", "b", "c"], false) ∧
    findPaginationUrls "Myrtle Beach" none 4 = ([searchUrl "Myrtle Beach"], true) := by
  constructor
  · rw [(C9_find_pagination "Myrtle Beach" (some ["a", "b", "c", "d", "e"]) 4
      (by omega)).2.2.1 ["a", "b", "c", "d", "e"] rfl]
    rfl
  · exact (C9_find_pagination "Myrtle Beach" none 4 (by omega)).2.2.2 rfl

/-! ### C1: window sequencing -/

/-- The initial accumulator is bounded by a `foldl max`. -/
theorem foldl_max_init_le (l : List Nat) : ∀ a : Nat, a ≤ l.foldl max a := by
  induction l with
  | nil => intro a; exact le_rfl
  | cons y l ih =>
    intro a
    exact le_trans (le_max_left a y) (ih (max a y))

/-- Every list element is bounded by a `foldl max`. -/
theorem le_foldl_max (l : List Nat) : ∀ x ∈ l, ∀ a : Nat, x ≤ l.foldl max a := by
  induction l with
  | nil => intro x hx; cases hx
  | cons y l ih =>
    intro x hx a
    rcases List.mem_cons.mp hx with rfl | hx
    · exact le_trans (le_max_right a x) (foldl_max_init_le l (max a x))
    · exact ih x hx (max a y)

/-- The windows cover the chunked list exactly: chunking (with a window
size of at least 1) partitions the list. -/
theorem chunksGo_join {A : Type} (c : Nat) (hc : 1 ≤ c) :
    ∀ fuel (l : List A), l.length ≤ fuel → (chunksGo c fuel l).flatten = l := by
  intro fuel
  induction fuel with
  | zero =>
    intro l hl
    have h0 : l = [] := List.length_eq_zero.mp (by omega)
    subst h0
    rfl
  | succ fuel ih =>
    intro l hl
    cases l with
    | nil => rfl
    | cons a l =>
      show ((a :: l).take c :: chunksGo c fuel (l.drop (c - 1))).flatten = a :: l
      rw [List.flatten_cons, ih (l.drop (c - 1)) (by simp only [List.length_drop]; simp only [List.length_cons] at hl; omega)]
      cases c with
      | zero => omega
      | succ c' =>
        show (a :: l.take c') ++ l.drop (c' + 1 - 1) = a :: l
        simp [List.take_append_drop]

/-- When every task of a window fulfills, the window's `Promise.all`
settles no earlier than each of its tasks. -/
theorem promiseAllSettle_all_ok (w : List WinTask) (h : ∀ task ∈ w, task.ok = true) :
    ∀ task ∈ w, task.finish ≤ promiseAllSettle w := by
  intro task htask
  unfold promiseAllSettle
  have hfilter : w.filter (fun t => !t.ok) = [] := by
    rw [List.filter_eq_nil_iff]
    intro t ht
    simp [h t ht]
  rw [hfilter]
  show task.finish ≤ (w.map WinTask.finish).foldl max 0
  exact le_foldl_max (w.map WinTask.finish) task.finish
    (List.mem_map_of_mem WinTask.finish htask) 0

/-- Every window of the loop executes, failures notwithstanding. -/
theorem runWindows_map_snd (ws : List (List WinTask)) :
    ∀ t : Nat, (runWindows t ws).map Prod.snd = ws := by
  induction ws with
  | nil => intro t; rfl
  | cons w ws ih =>
    intro t
    show w :: (runWindows (t + promiseAllSettle w) ws).map Prod.snd = w :: ws
    rw [ih]

/-- Counterexample for claim C1: Four tasks chunked into windows of size 2: the
first window's first task rejects at time 1 while its sibling fulfills at
time 5; `Promise.all` of the window therefore rejects at time 1, the
`catch` only logs, and the second window starts at time 1 — before the
sibling task of window 0 has settled. The claimed strict sequencing
(window N+1 starts only after every task of window N settled) is false. -/
theorem C1_counterexample : ¬ windowsStrictlySequential (chunks 2 c1Tasks) := by
  intro h
  have h5 := h 0 (by decide) (WinTask.mk 5 true) (by decide)
  exact absurd h5 (by decide)

/-- Amended claim C1: The URL/row list is partitioned into fixed-size
windows run strictly in order, and window N+1 starts exactly when window
N's combined `Promise.all` settles: when every task of window N succeeds
this is only after all of window N's tasks have settled, but when a task
rejects, the next window starts at the first rejection and a
still-running sibling of window N may settle later; a single task's
failure never prevents the remaining windows from running (every window
executes). -/
theorem C1_window_sequencing (ws : List (List WinTask)) (c : Nat)
    (l : List WinTask) (hc : 1 ≤ c) :
    ((chunks c l).flatten = l) ∧
    ((runWindows 0 ws).map Prod.snd = ws) ∧
    (∀ n, n + 1 < ws.length →
      (∀ task ∈ ws.getD n [], task.ok = true) →
      ∀ task ∈ ws.getD n [], taskSettle ws n task ≤ windowStart ws (n + 1)) := by
  refine ⟨chunksGo_join c hc l.length l le_rfl, runWindows_map_snd ws 0, ?_⟩
  intro n _ hok task htask
  show windowStart ws n + task.finish
      ≤ windowStart ws n + promiseAllSettle (ws.getD n [])
  exact Nat.add_le_add_left (promiseAllSettle_all_ok (ws.getD n []) hok task htask) _

/-- Witness for claim C1: The amended statement at concrete inputs: the chunking
partitions the four tasks, and on an all-success window the next window
starts only after both tasks settled. -/
theorem C1_window_sequencing_witness :
    (chunks 2 c1Tasks).flatten = c1Tasks ∧
    taskSettle okWindows 0 (WinTask.mk 5 true) ≤ windowStart okWindows 1 := by
  constructor
  · exact (C1_window_sequencing okWindows 2 c1Tasks (by omega)).1
  · exact (C1_window_sequencing okWindows 2 c1Tasks (by omega)).2.2 0 (by decide)
      (by decide) (WinTask.mk 5 true) (by decide)

/-! ### C2: exhausted detail-crawl retries and the review pipeline -/

/-- A failing attempt neither succeeds nor closes its pipeline. -/
theorem runListingAttempt_fail (o : ListingAttempt) (h : o.isFail = true) :
    (runListingAttempt o).2.2 = false ∧ (runListingAttempt o).2.1 = false := by
  cases o with
  | ok revs => exact absurd h (by simp [ListingAttempt.isFail])
  | failNav => exact ⟨rfl, rfl⟩
  | failAfter revs => exact ⟨rfl, rfl⟩

/-- When every attempt from `tries` on fails, `processListing`'s loop runs
out its `retries` attempts, logs the max-retries error, returns normally
with no success, and none of the attempts it records has a closed
pipeline. -/
theorem processListingLoop_allFail (outcomes : Nat → ListingAttempt) (retries : Nat) :
    ∀ fuel tries acc, tries < retries → retries ≤ fuel + tries →
      (∀ t, tries ≤ t → t < retries → (outcomes t).isFail = true) →
      ∃ rest,
        (processListingLoop outcomes retries fuel tries acc).success = false ∧
        (processListingLoop outcomes retries fuel tries acc).attemptsUsed = retries ∧
        (processListingLoop outcomes retries fuel tries acc).attempts = acc ++ rest ∧
        (processListingLoop outcomes retries fuel tries acc).maxRetriesLogged = true ∧
        ∀ pc ∈ rest, pc.2 = false := by
  intro fuel
  induction fuel with
  | zero =>
    intro tries acc h1 h2 h3
    exact absurd h2 (by omega)
  | succ fuel ih =>
    intro tries acc h1 h2 h3
    have hisfail := h3 tries le_rfl h1
    obtain ⟨hsucc, hclosed⟩ := runListingAttempt_fail (outcomes tries) hisfail
    rcases hru : runListingAttempt (outcomes tries) with ⟨pl, cl, succ⟩
    rw [hru] at hsucc hclosed
    simp only at hsucc hclosed
    subst hsucc
    subst hclosed
    simp only [processListingLoop, h1, if_true, hru]
    by_cases hlast : retries ≤ tries + 1
    · rw [if_pos hlast]
      refine ⟨[(pl, false)], rfl, by simp only; omega, rfl, rfl, ?_⟩
      intro pc hpc
      rw [List.mem_singleton.mp hpc]
    · rw [if_neg hlast]
      obtain ⟨rest, hs, ha, hat, hm, hrest⟩ :=
        ih (tries + 1) (acc ++ [(pl, false)]) (by omega) (by omega)
          (fun t ht1 ht2 => h3 t (by omega) ht2)
      refine ⟨(pl, false) :: rest, hs, ha, ?_, hm, ?_⟩
      · rw [hat, List.append_assoc]
        rfl
      · intro pc hpc
        rcases List.mem_cons.mp hpc with rfl | hpc
        · rfl
        · exact hrest pc hpc

/-- Counterexample for claim C2: A row for which every attempt adds one review
and then throws before reaching `closePipeline`: after the 3 attempts are
exhausted the failure is logged and the row skipped, but none of the
three attempt pipelines was closed — the added review sits in the
in-memory batch of each attempt's pipeline and its sink was never
written, contradicting the claim that such an unflushed review pipeline is
still closed (flushed) before the task completes. -/
theorem C2_counterexample :
    (processListing aliceOutcomes 3).success = false ∧
    (processListing aliceOutcomes 3).maxRetriesLogged = true ∧
    (processListing aliceOutcomes 3).attempts
      = [(some alicePipeline, false), (some alicePipeline, false),
         (some alicePipeline, false)] ∧
    alicePipeline.storageQueue = [aliceReview] ∧
    alicePipeline.sink = none := by
  refine ⟨rfl, rfl, by decide, by decide, by decide⟩

/-- Amended claim C2: A detail-crawl row whose retry loop exhausts all its
attempts (at least one) has the max-retries error logged and is skipped
(the loop returns normally, with no success); but the review pipelines of
the failed attempts are NOT closed — each attempt creates a fresh
pipeline that is closed only on the success path, so reviews added before
the failure that did not reach the flush threshold are discarded. -/
theorem C2_exhausted_retries (outcomes : Nat → ListingAttempt) (retries : Nat)
    (h1 : 1 ≤ retries) (hfail : ∀ t, t < retries → (outcomes t).isFail = true) :
    (processListing outcomes retries).success = false ∧
    (processListing outcomes retries).maxRetriesLogged = true ∧
    (processListing outcomes retries).attemptsUsed = retries ∧
    ∀ pc ∈ (processListing outcomes retries).attempts, pc.2 = false := by
  obtain ⟨rest, hs, ha, hat, hm, hrest⟩ :=
    processListingLoop_allFail outcomes retries retries 0 [] (by omega) (by omega)
      (fun t _ ht => hfail t ht)
  refine ⟨hs, hm, ha, ?_⟩
  intro pc hpc
  unfold processListing at hpc
  rw [hat] at hpc
  exact hrest pc (by simpa using hpc)

/-- Witness for claim C2: The amended behaviour on the concrete always-failing
row with the default 3 retries. -/
theorem C2_exhausted_retries_witness :
    (processListing aliceOutcomes 3).success = false ∧
    (processListing aliceOutcomes 3).attemptsUsed = 3 ∧
    ∀ pc ∈ (processListing aliceOutcomes 3).attempts, pc.2 = false := by
  have h := C2_exhausted_retries aliceOutcomes 3 (by omega) (fun t _ => rfl)
  exact ⟨h.1, h.2.2.1, h.2.2.2⟩

/-! ### C10: the orchestrator's detail-file loop -/

/-- Claim C10: Evaluation at the failing input (two recorded files, each
with rows that take one time unit to process): `processResults` only
registers the CSV stream handlers before its promise resolves, so the
orchestrator's `await` returns at registration time and both files'
detail crawls are initiated at time 0, while their row processing
finishes at time 1 — the detail crawl of file 2 starts before file 1 has
run end-to-end, contradicting the claimed strict file sequencing. -/
theorem C10_detail_loop_not_sequential :
    detailLoopTimes 0 twoDetailFiles = [(0, 1), (0, 1)] ∧
    ¬ detailFilesSequential (detailLoopTimes 0 twoDetailFiles) := by
  constructor
  · rfl
  · intro h
    have h0 := h 0 (by decide) (by decide)
    exact absurd h0 (by decide)
